import Mathlib

/-!
Verification of `packages/xdl/src/start/ExpoUpdatesManifestHandler.ts`.

The TypeScript unit is a single Express/Node middleware serving the
`/update-manifest-experimental` route.  We embed it shallowly: external
collaborators (config loader, entry-point resolver, classic-manifest
provider, SDK-to-runtime mapping, asset collector inputs, uuid and clock)
become an explicit environment, fallible steps return `Except JsError`,
and the handler's writes to the HTTP response become an explicit list of
effects, in the order the code performs them.
-/

namespace ExpoUpdates

/-- JSON values, as produced by JSON.stringify on the bodies this handler
writes.  Numbers and booleans never occur in those bodies, so they are
omitted: a key holding an undefined value is dropped by stringify, which
the serializers below model by omitting the key from the field list. -/
inductive Json where
  | null : Json
  | str : String → Json
  | arr : List Json → Json
  | obj : List (String × Json) → Json

/-- Lookup of a key in a JSON object field list (first occurrence wins). -/
def lookupField : List (String × Json) → String → Option Json
  | [], _ => none
  | (k, v) :: rest, key => if k = key then some v else lookupField rest key

/-- Lookup of a key at the top level of a JSON value; none on non-objects. -/
def jsonObjLookup : Json → String → Option Json
  | Json.obj fields, key => lookupField fields key
  | _, _ => none

/-- Model of a JavaScript Error value: every failure that crosses the
handler boundary is an Error instance carrying a class name (such as
Error or TypeError) and a message. -/
structure JsError where
  name : String
  message : String
deriving DecidableEq

/-- Error.prototype.toString per the ECMAScript specification: the name,
a colon-space separator when both parts are non-empty, the message. -/
def JsError.toString (e : JsError) : String :=
  if e.name = "" then e.message
  else if e.message = "" then e.name
  else e.name ++ ": " ++ e.message

/-- A plain `new Error(message)`. -/
def mkError (m : String) : JsError := ⟨"Error", m⟩

/-- A TypeError, as raised by property access on null or undefined. -/
def mkTypeError (m : String) : JsError := ⟨"TypeError", m⟩

/-- An incoming HTTP request: the optional raw url (path, query string,
fragment) and the header map.  Node's HTTP parser hands this unit
`req.headers` with names already lowercased and duplicates already
joined, so the keys here are the normalized lowercase names. -/
structure Request where
  url : Option String
  headers : List (String × String)

/-- The pathname component of url.parse applied to a server request url:
the part before the first question mark, after stripping the fragment;
null (none) when that part is empty. -/
def pathnameOf (u : String) : Option String :=
  let beforeHash := u.data.takeWhile (fun c => c != '#')
  let p := beforeHash.takeWhile (fun c => c != '?')
  if p = [] then none else some (String.mk p)

/-- The query-string component of url.parse: everything after the first
question mark, with the fragment stripped first. -/
def queryStringOf (u : String) : List Char :=
  let beforeHash := u.data.takeWhile (fun c => c != '#')
  (beforeHash.dropWhile (fun c => c != '?')).drop 1

/-- Splits a character run at every ampersand. -/
def splitAmp : List Char → List (List Char)
  | [] => [[]]
  | c :: cs =>
    if c = '&' then [] :: splitAmp cs
    else
      match splitAmp cs with
      | [] => [[c]]
      | g :: gs => (c :: g) :: gs

/-- querystring.parse: ampersand-separated key=value segments, a segment
without an equals sign carrying the empty value; empty segments are
dropped.  Percent-decoding is modelled as the identity, no
percent-escaped input being considered anywhere in this development. -/
def parseQuery (u : String) : List (String × String) :=
  (splitAmp (queryStringOf u)).filterMap (fun part =>
    if part = [] then none
    else some (String.mk (part.takeWhile (fun c => c != '=')),
               String.mk ((part.dropWhile (fun c => c != '=')).drop 1)))

/-- All values of a given query key, in order of occurrence. -/
def queryVals (u : String) (key : String) : List String :=
  (parseQuery u).filterMap (fun kv => if kv.1 = key then some kv.2 else none)

/-- Joins strings with a separator character run. -/
def joinSep (sep : String) : List String → String
  | [] => ""
  | [s] => s
  | s :: rest => s ++ sep ++ joinSep sep rest

/-- query[key] as seen through url.parse(u, true): undefined (none) when
the key never occurs, the value itself for a single occurrence, and the
comma-join (JavaScript String() of the array) when the key repeats. -/
def queryJoined (u : String) (key : String) : Option String :=
  match queryVals u key with
  | [] => none
  | vs => some (joinSep "," vs)

/-- req.headers[key] for a lowercase key: first entry of the normalized
header map. -/
def headerLookup (hs : List (String × String)) (key : String) : Option String :=
  match hs with
  | [] => none
  | (k, v) :: rest => if k = key then some v else headerLookup rest key

/-- JavaScript a || b on string-or-undefined operands: the left operand
unless it is falsy, that is undefined or the empty string. -/
def jsOr (a b : Option String) : Option String :=
  match a with
  | some v => if v = "" then b else some v
  | none => b

/-- The platform value contributed by the query string: none when the
request has no url or the url is falsy (the empty string), otherwise the
parsed query's platform entry. -/
def queryPlatformOf (req : Request) : Option String :=
  match req.url with
  | some u => if u = "" then none else queryJoined u "platform"
  | none => none

/-- The error thrown when no platform source is available (line 22). -/
def missingPlatformError : JsError :=
  mkError "Must specify expo-platform header or query parameter"

/-- getPlatformFromRequest (lines 18-25): query parameter first, then the
expo-platform header, a falsy result (absent or empty) raising the
missing-platform error. -/
def getPlatformFromRequest (req : Request) : Except JsError String :=
  match jsOr (queryPlatformOf req) (headerLookup req.headers "expo-platform") with
  | some v => if v = "" then Except.error missingPlatformError else Except.ok v
  | none => Except.error missingPlatformError

/-- The lazy scan of the bundle-url regex after the scheme: the shortest
run of non-newline characters up to and including the next slash; none
when a newline or the end of input comes first. -/
def originScan : List Char → Option (List Char)
  | [] => none
  | c :: cs =>
    if c = '/' then some ['/']
    else if c = '\n' then none
    else (originScan cs).map (fun r => c :: r)

/-- The full match of the bundle-url regex of line 65 against the start
of the input: the characters h t t p, an optional s, colon slash slash,
then the lazy scan up to the next slash. -/
def matchHttpOrigin : List Char → Option (List Char)
  | 'h' :: 't' :: 't' :: 'p' :: 's' :: ':' :: '/' :: '/' :: r =>
    (originScan r).map (fun m => 'h' :: 't' :: 't' :: 'p' :: 's' :: ':' :: '/' :: '/' :: m)
  | 'h' :: 't' :: 't' :: 'p' :: ':' :: '/' :: '/' :: r =>
    (originScan r).map (fun m => 'h' :: 't' :: 't' :: 'p' :: ':' :: '/' :: '/' :: m)
  | _ => none

/-- bundleUrl.match of line 65, returning the matched origin prefix
(scheme, host, one trailing slash) when the url has an absolute http or
https shape, none otherwise. -/
def bundleOrigin (s : String) : Option String :=
  (matchHttpOrigin s.data).map String.mk

/-- The TypeError raised by line 65 when bundleUrl is undefined and the
callback dereferences it. -/
def undefinedBundleUrlError : JsError :=
  mkTypeError "Cannot read properties of undefined"

/-- The TypeError raised by line 65 when the regex match is null and the
non-null assertion indexes it; the spec names this condition the
invalid-bundle-url failure. -/
def invalidBundleUrlError : JsError :=
  mkTypeError "Cannot read properties of null"

/-- The base-URL callback of lines 62-66: origin of the bundle url, the
fixed assets segment, then the asset's relative path; a TypeError when
the bundle url is undefined or has no absolute http(s) origin. -/
def urlBuilder (bundleUrl : Option String) (path : String) : Except JsError String :=
  match bundleUrl with
  | none => Except.error undefinedBundleUrlError
  | some u =>
    match bundleOrigin u with
    | none => Except.error invalidBundleUrlError
    | some o => Except.ok (o ++ ("assets/" ++ path))

/-- The classic manifest result (the exp object of the classic manifest
provider): the three fields this unit reads, plus the remaining fields
passed through opaquely. -/
structure ClassicManifest where
  bundleUrl : Option String
  runtimeVersion : Option String
  sdkVersion : Option String
  rest : List (String × Json)

/-- The project configuration returned by the external config loader,
opaque to this unit beyond being handed to collaborators. -/
structure ProjectConfig where
  exp : List (String × Json)

/-- One resolved asset descriptor: the relative path the collector fed
the base-URL callback and the resulting absolute url. -/
structure Asset where
  path : String
  url : String

/-- The launchAsset object of the manifest (lines 72-76). -/
structure LaunchAsset where
  key : String
  contentType : String
  url : Option String

/-- The manifest body of lines 68-82; metadata is the constant empty
object and extra wraps the classic manifest, so only the varying parts
are fields here. -/
structure ManifestBody where
  id : String
  createdAt : String
  runtimeVersion : Option String
  launchAsset : LaunchAsset
  assets : List Asset
  expoGoConfig : ClassicManifest

/-- A header value of the headers Map: the code stores the number 0 and
strings. -/
inductive HVal where
  | num : Nat → HVal
  | str : String → HVal
deriving DecidableEq

/-- The value returned by getManifestResponseAsync: the body and the
ordered header mapping (a JavaScript Map preserves insertion order). -/
structure ManifestResponse where
  body : ManifestBody
  headers : List (String × HVal)

/-- The external collaborators of the unit, together with the per-request
ambient state (uuid.v4 and the clock) and the relative asset paths the
external collector discovers for the project. -/
structure Env where
  getConfig : String → Except JsError ProjectConfig
  resolveEntryPoint : String → String → ProjectConfig → Except JsError String
  stripJSExtension : String → String
  getClassicManifest : String → String → Option String → Except JsError ClassicManifest
  getRuntimeVersionForSDKVersion : String → String
  assetPaths : List String
  uuid : String
  now : String

/-- Modelled from the spec: ProjectAssets.collectManifestAssets is
external to this unit (only its call site is in the source).  Per the
spec it produces an ordered sequence of asset descriptors, one per static
asset of the project, whose url is the supplied base-URL function applied
to the asset's relative path, and a failure of that function propagates.
The relative paths themselves come from the environment. -/
def collectManifestAssets (paths : List String)
    (baseUrlFn : String → Except JsError String) : Except JsError (List Asset) :=
  match paths with
  | [] => Except.ok []
  | p :: rest =>
    match baseUrlFn p with
    | Except.error e => Except.error e
    | Except.ok u =>
      match collectManifestAssets rest baseUrlFn with
      | Except.error e => Except.error e
      | Except.ok tail => Except.ok ({ path := p, url := u } :: tail)

/-- The four headers set on lines 34-38, in insertion order. -/
def fixedResponseHeaders : List (String × HVal) :=
  [("expo-protocol-version", HVal.num 0),
   ("expo-sfv-version", HVal.num 0),
   ("cache-control", HVal.str "private, max-age=0"),
   ("content-type", HVal.str "application/json")]

/-- Lines 54-58: nullish coalescing on runtimeVersion (an empty string is
kept), then a truthiness test on sdkVersion (an empty string falls to the
null branch); none models the resulting null. -/
def runtimeVersionOf (env : Env) (c : ClassicManifest) : Option String :=
  match c.runtimeVersion with
  | some rv => some rv
  | none =>
    match c.sdkVersion with
    | some s => if s = "" then none else some (env.getRuntimeVersionForSDKVersion s)
    | none => none

/-- getManifestResponseAsync (lines 27-88), with the fallible steps in
the order the code performs them: platform, config, entry point, classic
manifest, asset collection. -/
def getManifestResponseAsync (env : Env) (projectRoot : String) (req : Request) :
    Except JsError ManifestResponse :=
  let headers := fixedResponseHeaders
  match getPlatformFromRequest req with
  | Except.error e => Except.error e
  | Except.ok platform =>
    let host := headerLookup req.headers "host"
    match env.getConfig projectRoot with
    | Except.error e => Except.error e
    | Except.ok projectConfig =>
      match env.resolveEntryPoint projectRoot platform projectConfig with
      | Except.error e => Except.error e
      | Except.ok entryPoint =>
        let mainModuleName := env.stripJSExtension entryPoint
        match env.getClassicManifest projectRoot platform host with
        | Except.error e => Except.error e
        | Except.ok classic =>
          let runtimeVersion := runtimeVersionOf env classic
          let bundleUrl := classic.bundleUrl
          match collectManifestAssets env.assetPaths (urlBuilder bundleUrl) with
          | Except.error e => Except.error e
          | Except.ok assets =>
            Except.ok {
              body := {
                id := env.uuid
                createdAt := env.now
                runtimeVersion := runtimeVersion
                launchAsset := {
                  key := mainModuleName
                  contentType := "application/javascript"
                  url := bundleUrl }
                assets := assets
                expoGoConfig := classic }
              headers := headers }

/-- JSON.stringify of one asset descriptor. -/
def assetToJson (a : Asset) : Json := Json.obj [("url", Json.str a.url)]

/-- A string-valued key that stringify drops when the value is
undefined. -/
def optStrField (key : String) (v : Option String) : List (String × Json) :=
  match v with
  | some s => [(key, Json.str s)]
  | none => []

/-- JSON.stringify of the classic manifest passed through under extra. -/
def classicToJson (c : ClassicManifest) : Json :=
  Json.obj (optStrField "bundleUrl" c.bundleUrl
    ++ optStrField "runtimeVersion" c.runtimeVersion
    ++ optStrField "sdkVersion" c.sdkVersion
    ++ c.rest)

/-- JSON.stringify of the launchAsset object: the url key is dropped when
the bundle url was undefined. -/
def launchAssetToJson (la : LaunchAsset) : Json :=
  Json.obj ([("key", Json.str la.key), ("contentType", Json.str la.contentType)]
    ++ optStrField "url" la.url)

/-- A string-or-null value: stringify keeps a null-valued key. -/
def nullableStr (v : Option String) : Json :=
  match v with
  | some s => Json.str s
  | none => Json.null

/-- JSON.stringify of the manifest body of lines 68-82: keys in insertion
order, the null runtimeVersion kept, metadata the constant empty
object. -/
def manifestToJson (b : ManifestBody) : Json :=
  Json.obj [
    ("id", Json.str b.id),
    ("createdAt", Json.str b.createdAt),
    ("runtimeVersion", nullableStr b.runtimeVersion),
    ("launchAsset", launchAssetToJson b.launchAsset),
    ("assets", Json.arr (b.assets.map assetToJson)),
    ("metadata", Json.obj []),
    ("extra", Json.obj [("expoGoConfig", classicToJson b.expoGoConfig)])]

/-- The error body of lines 126-130. -/
def errorBodyJson (e : JsError) : Json :=
  Json.obj [("error", Json.str e.toString)]

/-- One observable action of the handler on the response object or the
middleware chain, in the order the code performs them. -/
inductive Effect where
  | next : Effect
  | setHeader : String → HVal → Effect
  | setStatus : Nat → Effect
  | endBody : Json → Effect
  | logEvent : String → Option String → Effect
  | logError : JsError → Effect

/-- The route guard of line 97: a falsy url (absent or empty) or a
pathname other than the exact manifest path fails the guard. -/
def matchesRoute (req : Request) : Bool :=
  match req.url with
  | none => false
  | some u =>
    if u = "" then false
    else pathnameOf u == some "/update-manifest-experimental"

/-- getManifestHandler (lines 90-133) as a trace of effects: pass-through
on an unmatched route; on a match, either the headers in insertion order,
the serialized body and the analytics event, or the error log, the 520
status and the error body. -/
def handler (env : Env) (projectRoot : String) (req : Request) : List Effect :=
  if matchesRoute req then
    match getManifestResponseAsync env projectRoot req with
    | Except.ok resp =>
      resp.headers.map (fun kv => Effect.setHeader kv.1 kv.2)
        ++ [Effect.endBody (manifestToJson resp.body),
            Effect.logEvent "Serve Expo Updates Manifest" resp.body.runtimeVersion]
    | Except.error e =>
      [Effect.logError e, Effect.setStatus 520, Effect.endBody (errorBodyJson e)]
  else [Effect.next]

/-- The JSON bodies a trace writes, in order. -/
def bodiesWritten (trace : List Effect) : List Json :=
  trace.filterMap (fun ef => match ef with | Effect.endBody j => some j | _ => none)

/-- The headers a trace writes, in order. -/
def headersWritten (trace : List Effect) : List (String × HVal) :=
  trace.filterMap (fun ef => match ef with | Effect.setHeader n v => some (n, v) | _ => none)

/-- The status codes a trace sets, in order. -/
def statusesWritten (trace : List Effect) : List Nat :=
  trace.filterMap (fun ef => match ef with | Effect.setStatus c => some c | _ => none)

/-- How many times a trace invokes the continuation. -/
def nextCalls (trace : List Effect) : Nat :=
  (trace.filter (fun ef => match ef with | Effect.next => true | _ => false)).length

/-- A body is a manifest document when it is the serialization of some
manifest body. -/
def isManifestBody (j : Json) : Prop := ∃ b, j = manifestToJson b

/-- A body is an error body when it is a one-key object holding a string
under the error key. -/
def isErrorBody (j : Json) : Prop := ∃ s, j = Json.obj [("error", Json.str s)]

/-- Failures of the external collaborators are JavaScript Error instances
and therefore carry a non-empty class name. -/
def envErrorsNamed (env : Env) : Prop :=
  (∀ r e, env.getConfig r = Except.error e → e.name ≠ "") ∧
  (∀ r p c e, env.resolveEntryPoint r p c = Except.error e → e.name ≠ "") ∧
  (∀ r p h e, env.getClassicManifest r p h = Except.error e → e.name ≠ "")

/-- A matched request carrying a platform query parameter and a host. -/
def reqOk : Request :=
  { url := some "/update-manifest-experimental?platform=ios"
    headers := [("host", "localhost:19000")] }

/-- A matched request carrying both a non-empty platform query parameter
and a disagreeing expo-platform header. -/
def reqBothQP : Request :=
  { url := some "/update-manifest-experimental?platform=android"
    headers := [("expo-platform", "ios")] }

/-- A matched request with an empty-valued platform query parameter and a
disagreeing expo-platform header. -/
def reqEmptyQP : Request :=
  { url := some "/update-manifest-experimental?platform="
    headers := [("expo-platform", "ios")] }

/-- A matched request whose only platform source is a present but
empty-valued expo-platform header. -/
def reqEmptyHdr : Request :=
  { url := some "/update-manifest-experimental"
    headers := [("expo-platform", "")] }

/-- A matched request with no platform source at all. -/
def reqNoPlat : Request :=
  { url := some "/update-manifest-experimental"
    headers := [("host", "localhost:19000")] }

/-- An environment whose collaborators all succeed. -/
def envOk : Env :=
  { getConfig := fun _ => Except.ok ⟨[]⟩
    resolveEntryPoint := fun _ _ _ => Except.ok "index.js"
    stripJSExtension := fun _ => "index"
    getClassicManifest := fun _ _ _ =>
      Except.ok ⟨some "http://localhost:19000/bundle.js", none, some "45.0.0", []⟩
    getRuntimeVersionForSDKVersion := fun s => "exposdk:" ++ s
    assetPaths := ["logo.png"]
    uuid := "11111111-1111-1111-1111-111111111111"
    now := "2021-06-01T00:00:00.000Z" }

/-- An environment whose config loader rejects. -/
def envFailCfg : Env :=
  { envOk with getConfig := fun _ => Except.error (mkError "Could not find config") }

/-- An environment whose classic manifest has neither a runtimeVersion
nor an sdkVersion, and no assets. -/
def envNullRV : Env :=
  { envOk with
    getClassicManifest := fun _ _ _ =>
      Except.ok ⟨some "http://localhost:19000/bundle.js", none, none, []⟩
    assetPaths := [] }

/-- An environment whose classic manifest carries a bundle url without an
absolute http(s) origin (no slash after the host). -/
def envBadBundle : Env :=
  { envOk with
    getClassicManifest := fun _ _ _ =>
      Except.ok ⟨some "http://localhost:19000", none, some "45.0.0", []⟩ }

/-- An environment whose classic manifest has no bundleUrl at all and
whose project references no assets. -/
def envNoBundle : Env :=
  { envOk with
    getClassicManifest := fun _ _ _ => Except.ok ⟨none, none, some "45.0.0", []⟩
    assetPaths := [] }

/-- A platform-resolution failure is always the missing-platform error. -/
theorem getPlatform_error_eq (req : Request) (e : JsError)
    (h : getPlatformFromRequest req = Except.error e) : e = missingPlatformError := by
  unfold getPlatformFromRequest at h
  rcases hj : jsOr (queryPlatformOf req) (headerLookup req.headers "expo-platform") with _ | v
  · simp only [hj, Except.error.injEq] at h
    exact h.symm
  · simp only [hj] at h
    by_cases hv : v = ""
    · rw [if_pos hv] at h
      exact (Except.error.inj h).symm
    · rw [if_neg hv] at h
      exact absurd h (by simp)

/-- A failing asset collection points at a failing base-URL call. -/
theorem collectManifestAssets_error (paths : List String)
    (f : String → Except JsError String) (e : JsError)
    (h : collectManifestAssets paths f = Except.error e) :
    ∃ p, f p = Except.error e := by
  induction paths with
  | nil => simp [collectManifestAssets] at h
  | cons p rest ih =>
    unfold collectManifestAssets at h
    rcases hfp : f p with e' | u
    · simp only [hfp, Except.error.injEq] at h
      exact ⟨p, by rw [hfp, h]⟩
    · simp only [hfp] at h
      rcases hr : collectManifestAssets rest f with e' | tail
      · simp only [hr, Except.error.injEq] at h
        exact ih (by rw [hr, h])
      · simp only [hr] at h
        exact absurd h (by simp)

/-- The base-URL callback only ever fails with a TypeError. -/
theorem urlBuilder_error_name (bu : Option String) (p : String) (e : JsError)
    (h : urlBuilder bu p = Except.error e) : e.name = "TypeError" := by
  rcases bu with _ | u
  · simp only [urlBuilder, Except.error.injEq] at h
    rw [← h]; rfl
  · simp only [urlBuilder] at h
    rcases ho : bundleOrigin u with _ | o
    · simp only [ho, Except.error.injEq] at h
      rw [← h]; rfl
    · simp only [ho] at h
      exact absurd h (by simp)

/-- Every failure of the manifest builder carries a non-empty error
class name: internal failures are Error or TypeError instances and
collaborator failures are constrained by the environment hypothesis. -/
theorem manifest_error_name (env : Env) (root : String) (req : Request) (e : JsError)
    (hwf : envErrorsNamed env)
    (h : getManifestResponseAsync env root req = Except.error e) : e.name ≠ "" := by
  unfold getManifestResponseAsync at h
  rcases hp : getPlatformFromRequest req with ep | platform
  · simp only [hp, Except.error.injEq] at h
    rw [← h, getPlatform_error_eq req ep hp]
    simp [missingPlatformError, mkError]
  · simp only [hp] at h
    rcases hc : env.getConfig root with ec | cfg
    · simp only [hc, Except.error.injEq] at h
      rw [← h]
      exact hwf.1 root ec hc
    · simp only [hc] at h
      rcases he : env.resolveEntryPoint root platform cfg with ee | ep
      · simp only [he, Except.error.injEq] at h
        rw [← h]
        exact hwf.2.1 root platform cfg ee he
      · simp only [he] at h
        rcases hcm : env.getClassicManifest root platform (headerLookup req.headers "host")
          with em | classic
        · simp only [hcm, Except.error.injEq] at h
          rw [← h]
          exact hwf.2.2 root platform (headerLookup req.headers "host") em hcm
        · simp only [hcm] at h
          rcases ha : collectManifestAssets env.assetPaths (urlBuilder classic.bundleUrl)
            with ea | assets
          · simp only [ha, Except.error.injEq] at h
            rw [← h]
            obtain ⟨p, hpu⟩ := collectManifestAssets_error env.assetPaths _ ea ha
            rw [urlBuilder_error_name classic.bundleUrl p ea hpu]
            simp
          · simp only [ha] at h
            exact absurd h (by simp)

/-- A string with a non-empty left part stays non-empty under append. -/
theorem append_ne_empty_left (s t : String) (h : s ≠ "") : s ++ t ≠ "" := by
  intro hst
  apply h
  have hd : s.data ++ t.data = ([] : List Char) := by
    have := congrArg String.data hst
    simpa using this
  have hs : s.data = [] := (List.append_eq_nil.mp hd).1
  cases s with
  | mk d => cases hs; rfl

/-- The string form of an error with a non-empty class name is itself
non-empty. -/
theorem toString_ne_empty (e : JsError) (h : e.name ≠ "") : e.toString ≠ "" := by
  unfold JsError.toString
  rw [if_neg h]
  by_cases hm : e.message = ""
  · rw [if_pos hm]; exact h
  · rw [if_neg hm]
    have : e.name ++ ": " ++ e.message = (e.name ++ ": ") ++ e.message := by
      rw [String.append_assoc]
    rw [this]
    exact append_ne_empty_left _ _ (append_ne_empty_left _ _ h)

/-- Header-setting effects contribute no bodies. -/
theorem bodiesWritten_setHeaders (hs : List (String × HVal)) (rest : List Effect) :
    bodiesWritten (hs.map (fun kv => Effect.setHeader kv.1 kv.2) ++ rest) =
      bodiesWritten rest := by
  induction hs with
  | nil => rfl
  | cons kv tl ih => simp only [List.map_cons, List.cons_append, bodiesWritten,
      List.filterMap_cons] at ih ⊢; exact ih

/-- Header-setting effects are collected in order, before the rest. -/
theorem headersWritten_setHeaders (hs : List (String × HVal)) (rest : List Effect) :
    headersWritten (hs.map (fun kv => Effect.setHeader kv.1 kv.2) ++ rest) =
      hs ++ headersWritten rest := by
  induction hs with
  | nil => rfl
  | cons kv tl ih => simpa [headersWritten] using ih

/-- A serialized manifest document is never the one-key error body. -/
theorem manifestToJson_ne_errorBody (b : ManifestBody) (s : String) :
    manifestToJson b ≠ Json.obj [("error", Json.str s)] := by
  simp [manifestToJson]

/-- Every successful build returns exactly the fixed header list. -/
theorem success_headers (env : Env) (root : String) (req : Request) (resp : ManifestResponse)
    (h : getManifestResponseAsync env root req = Except.ok resp) :
    resp.headers = fixedResponseHeaders := by
  unfold getManifestResponseAsync at h
  rcases hp : getPlatformFromRequest req with ep | platform
  · simp only [hp] at h; exact absurd h (by simp)
  · simp only [hp] at h
    rcases hc : env.getConfig root with ec | cfg
    · simp only [hc] at h; exact absurd h (by simp)
    · simp only [hc] at h
      rcases he : env.resolveEntryPoint root platform cfg with ee | ep
      · simp only [he] at h; exact absurd h (by simp)
      · simp only [he] at h
        rcases hcm : env.getClassicManifest root platform (headerLookup req.headers "host")
          with em | classic
        · simp only [hcm] at h; exact absurd h (by simp)
        · simp only [hcm] at h
          rcases ha : collectManifestAssets env.assetPaths (urlBuilder classic.bundleUrl)
            with ea | assets
          · simp only [ha] at h; exact absurd h (by simp)
          · simp only [ha, Except.ok.injEq] at h
            rw [← h]

/-- The serialized document's runtimeVersion key holds the body's
runtimeVersion, with null for the absent case. -/
theorem manifest_runtimeVersion_lookup (b : ManifestBody) :
    jsonObjLookup (manifestToJson b) "runtimeVersion" = some (nullableStr b.runtimeVersion) := by
  simp [manifestToJson, jsonObjLookup, lookupField]

/-- The serialized document's launchAsset key holds the serialized
launch asset. -/
theorem manifest_launchAsset_lookup (b : ManifestBody) :
    jsonObjLookup (manifestToJson b) "launchAsset" = some (launchAssetToJson b.launchAsset) := by
  simp [manifestToJson, jsonObjLookup, lookupField]

/-- C1: on the matched path the handler writes exactly one body, and
that body is a manifest document or an error body but never both.
JSON.stringify of the constructed plain object and the fire-and-forget
analytics call are modelled as non-throwing, as the spec treats
analytics failures as outside the contract. -/
theorem handler_exactly_one_body (env : Env) (root : String) (req : Request)
    (hm : matchesRoute req = true) :
    ∃ j, bodiesWritten (handler env root req) = [j] ∧
      ((isManifestBody j ∧ ¬ isErrorBody j) ∨ (isErrorBody j ∧ ¬ isManifestBody j)) := by
  rcases hres : getManifestResponseAsync env root req with e | resp
  · refine ⟨errorBodyJson e, ?_, Or.inr ⟨⟨e.toString, rfl⟩, ?_⟩⟩
    · simp [handler, hm, hres, bodiesWritten]
    · rintro ⟨b, hb⟩
      exact manifestToJson_ne_errorBody b e.toString hb.symm
  · refine ⟨manifestToJson resp.body, ?_, Or.inl ⟨⟨resp.body, rfl⟩, ?_⟩⟩
    · simp only [handler, hm, hres, if_true]
      rw [bodiesWritten_setHeaders]
      rfl
    · rintro ⟨s, hs⟩
      exact manifestToJson_ne_errorBody resp.body s hs

/-- C1 witness: a concrete successful request through the handler. -/
theorem handler_exactly_one_body_wit :
    matchesRoute reqOk = true ∧
    (∃ j, bodiesWritten (handler envOk "/app" reqOk) = [j] ∧
      ((isManifestBody j ∧ ¬ isErrorBody j) ∨ (isErrorBody j ∧ ¬ isManifestBody j))) :=
  ⟨rfl, handler_exactly_one_body envOk "/app" reqOk rfl⟩

/-- C2: any failure raised while building the manifest response is
caught by the handler, which logs it, sets status 520 and writes the
one-key error body whose string is non-empty; the handler being a total
function of its inputs, no failure escapes it. -/
theorem failure_yields_520_error_body (env : Env) (root : String) (req : Request) (e : JsError)
    (hwf : envErrorsNamed env)
    (hm : matchesRoute req = true)
    (hf : getManifestResponseAsync env root req = Except.error e) :
    handler env root req =
      [Effect.logError e, Effect.setStatus 520,
       Effect.endBody (Json.obj [("error", Json.str e.toString)])] ∧
    statusesWritten (handler env root req) = [520] ∧
    e.toString ≠ "" := by
  have h1 : handler env root req =
      [Effect.logError e, Effect.setStatus 520,
       Effect.endBody (Json.obj [("error", Json.str e.toString)])] := by
    simp [handler, hm, hf, errorBodyJson]
  refine ⟨h1, ?_, toString_ne_empty e (manifest_error_name env root req e hwf hf)⟩
  rw [h1]; rfl

/-- C2 witness: a failing config loader yields the 520 error response. -/
theorem failure_yields_520_error_body_wit :
    handler envFailCfg "/app" reqOk =
      [Effect.logError (mkError "Could not find config"), Effect.setStatus 520,
       Effect.endBody (Json.obj [("error",
         Json.str (JsError.toString (mkError "Could not find config")))])] ∧
    statusesWritten (handler envFailCfg "/app" reqOk) = [520] ∧
    JsError.toString (mkError "Could not find config") ≠ "" :=
  failure_yields_520_error_body envFailCfg "/app" reqOk (mkError "Could not find config")
    ⟨fun _ e h => by
        rw [← Except.error.inj h]; simp [mkError],
      fun _ _ _ e h => by simp [envFailCfg, envOk] at h,
      fun _ _ _ e h => by simp [envFailCfg, envOk] at h⟩
    rfl rfl

/-- C3: a request with no url or with a pathname other than the manifest
path leaves the response untouched (no header, status or body effects)
and calls the continuation exactly once. -/
theorem non_matching_passthrough (env : Env) (root : String) (req : Request)
    (h : req.url = none ∨
      ∃ u, req.url = some u ∧ pathnameOf u ≠ some "/update-manifest-experimental") :
    handler env root req = [Effect.next] ∧
    headersWritten (handler env root req) = [] ∧
    statusesWritten (handler env root req) = [] ∧
    bodiesWritten (handler env root req) = [] ∧
    nextCalls (handler env root req) = 1 := by
  have hm : matchesRoute req = false := by
    rcases h with h | ⟨u, hu, hp⟩
    · simp [matchesRoute, h]
    · simp only [matchesRoute, hu]
      by_cases hu0 : u = ""
      · rw [if_pos hu0]
      · rw [if_neg hu0]
        exact beq_eq_false_iff_ne.mpr hp
  have h1 : handler env root req = [Effect.next] := by
    simp [handler, hm]
  refine ⟨h1, ?_, ?_, ?_, ?_⟩ <;> rw [h1] <;> rfl

/-- C3 witness: a request for a different path passes through. -/
theorem non_matching_passthrough_wit :
    handler envOk "/app" { url := some "/other-path", headers := [] } = [Effect.next] ∧
    nextCalls (handler envOk "/app" { url := some "/other-path", headers := [] }) = 1 := by
  have h := non_matching_passthrough envOk "/app" { url := some "/other-path", headers := [] }
    (Or.inr ⟨"/other-path", rfl, by decide⟩)
  exact ⟨h.1, h.2.2.2.2⟩

/-- C4 counterexample: with neither an explicit runtimeVersion nor an
sdkVersion in the classic manifest result, the document is NOT missing
the runtimeVersion field; the key is present with the JSON value null,
because the code writes the null of the conditional expression and
JSON.stringify keeps null-valued keys. -/
theorem runtimeVersion_null_counterexample :
    (getManifestResponseAsync envNullRV "/app" reqOk).map
        (fun r => jsonObjLookup (manifestToJson r.body) "runtimeVersion") =
      Except.ok (some Json.null) ∧
    Except.ok (some Json.null) ≠
      (Except.ok none : Except JsError (Option Json)) := by
  refine ⟨rfl, ?_⟩
  simp

/-- C4 amended: the document's runtimeVersion field holds the classic
config's explicit runtimeVersion verbatim when that is present;
otherwise the SDK-to-runtime mapping of sdkVersion when sdkVersion is
present and non-empty; otherwise the field is present with the JSON
value null (an empty-string sdkVersion also falls to null). -/
theorem runtimeVersion_policy (env : Env) (root : String) (req : Request)
    (platform cfg ep classic assets)
    (hp : getPlatformFromRequest req = Except.ok platform)
    (hc : env.getConfig root = Except.ok cfg)
    (he : env.resolveEntryPoint root platform cfg = Except.ok ep)
    (hcm : env.getClassicManifest root platform (headerLookup req.headers "host") =
      Except.ok classic)
    (ha : collectManifestAssets env.assetPaths (urlBuilder classic.bundleUrl) =
      Except.ok assets) :
    ∃ resp, getManifestResponseAsync env root req = Except.ok resp ∧
      jsonObjLookup (manifestToJson resp.body) "runtimeVersion" =
        some (match classic.runtimeVersion with
              | some rv => Json.str rv
              | none =>
                match classic.sdkVersion with
                | some s =>
                  if s = "" then Json.null
                  else Json.str (env.getRuntimeVersionForSDKVersion s)
                | none => Json.null) := by
  have hres : getManifestResponseAsync env root req = Except.ok
      { body := { id := env.uuid, createdAt := env.now,
                  runtimeVersion := runtimeVersionOf env classic,
                  launchAsset := { key := env.stripJSExtension ep,
                                   contentType := "application/javascript",
                                   url := classic.bundleUrl },
                  assets := assets, expoGoConfig := classic },
        headers := fixedResponseHeaders } := by
    simp only [getManifestResponseAsync, hp, hc, he, hcm, ha]
  refine ⟨_, hres, ?_⟩
  rw [manifest_runtimeVersion_lookup]
  show some (nullableStr (runtimeVersionOf env classic)) = _
  rcases hrv : classic.runtimeVersion with _ | rv
  · rcases hsv : classic.sdkVersion with _ | s
    · simp [runtimeVersionOf, nullableStr, hrv, hsv]
    · by_cases hs : s = "" <;> simp [runtimeVersionOf, nullableStr, hrv, hsv, hs]
  · simp [runtimeVersionOf, nullableStr, hrv]

/-- C4 witness: with no explicit runtimeVersion and sdkVersion 45.0.0,
the document carries the mapped runtime version. -/
theorem runtimeVersion_policy_wit :
    ∃ resp, getManifestResponseAsync envOk "/app" reqOk = Except.ok resp ∧
      jsonObjLookup (manifestToJson resp.body) "runtimeVersion" =
        some (Json.str "exposdk:45.0.0") := by
  obtain ⟨resp, h1, h2⟩ := runtimeVersion_policy envOk "/app" reqOk "ios" ⟨[]⟩ "index.js"
    ⟨some "http://localhost:19000/bundle.js", none, some "45.0.0", []⟩
    [{ path := "logo.png", url := "http://localhost:19000/assets/logo.png" }]
    rfl rfl rfl rfl rfl
  exact ⟨resp, h1, by rw [h2]; rfl⟩

/-- C5 counterexample: with a present but empty-valued platform query
parameter and a disagreeing expo-platform header, the resolved platform
is the header's value, not the query parameter's value, because the
empty string is falsy under the or-operator of line 20. -/
theorem query_platform_empty_counterexample :
    queryVals "/update-manifest-experimental?platform=" "platform" = [""] ∧
    headerLookup reqEmptyQP.headers "expo-platform" = some "ios" ∧
    getPlatformFromRequest reqEmptyQP = Except.ok "ios" ∧
    getPlatformFromRequest reqEmptyQP ≠ Except.ok "" := by
  refine ⟨rfl, rfl, rfl, ?_⟩
  intro h
  have h' : (Except.ok "ios" : Except JsError String) = Except.ok "" := h
  simp at h'

/-- C5 amended: when the platform query parameter is present with a
non-empty value (values of a repeated key joined by commas), the
resolved platform is exactly that value, whatever the expo-platform
header holds; a present but empty-valued query parameter instead falls
back to the header. -/
theorem query_platform_precedence (req : Request) (u v : String)
    (hu : req.url = some u) (hne : u ≠ "")
    (hq : queryJoined u "platform" = some v) (hv : v ≠ "") :
    getPlatformFromRequest req = Except.ok v := by
  simp [getPlatformFromRequest, queryPlatformOf, jsOr, hu, hne, hq, hv]

/-- C5 witness: query parameter android beats header ios. -/
theorem query_platform_precedence_wit :
    headerLookup reqBothQP.headers "expo-platform" = some "ios" ∧
    getPlatformFromRequest reqBothQP = Except.ok "android" :=
  ⟨rfl, query_platform_precedence reqBothQP "/update-manifest-experimental?platform=android"
    "android" rfl (by decide) rfl (by decide)⟩

/-- C6 counterexample: an expo-platform header that is present but
empty-valued is treated as absent, so platform resolution fails even
though one of the two sources is present, against the claim's converse
direction. -/
theorem empty_header_platform_counterexample :
    headerLookup reqEmptyHdr.headers "expo-platform" = some "" ∧
    queryPlatformOf reqEmptyHdr = none ∧
    getPlatformFromRequest reqEmptyHdr = Except.error missingPlatformError :=
  ⟨rfl, rfl, rfl⟩

/-- C6 amended: with neither platform source present the resolution
fails with the missing-platform error and the handler answers 520 with
the one-key error body; with either source present AND non-empty the
resolution succeeds with a non-empty platform string. -/
theorem platform_resolution_and_520 (env : Env) (root : String) (req : Request)
    (hm : matchesRoute req = true) :
    (queryPlatformOf req = none ∧ headerLookup req.headers "expo-platform" = none →
      getPlatformFromRequest req = Except.error missingPlatformError ∧
      handler env root req =
        [Effect.logError missingPlatformError, Effect.setStatus 520,
         Effect.endBody (Json.obj [("error", Json.str missingPlatformError.toString)])]) ∧
    (∀ v, queryPlatformOf req = some v → v ≠ "" →
      getPlatformFromRequest req = Except.ok v) ∧
    (∀ w, headerLookup req.headers "expo-platform" = some w → w ≠ "" →
      ∃ v, getPlatformFromRequest req = Except.ok v ∧ v ≠ "") := by
  refine ⟨?_, ?_, ?_⟩
  · rintro ⟨hq, hh⟩
    have hplat : getPlatformFromRequest req = Except.error missingPlatformError := by
      simp [getPlatformFromRequest, jsOr, hq, hh]
    have hres : getManifestResponseAsync env root req = Except.error missingPlatformError := by
      simp only [getManifestResponseAsync, hplat]
    exact ⟨hplat, by simp [handler, hm, hres, errorBodyJson]⟩
  · intro v hq hv
    simp [getPlatformFromRequest, jsOr, hq, hv]
  · intro w hh hw
    rcases hq : queryPlatformOf req with _ | v
    · exact ⟨w, by simp [getPlatformFromRequest, jsOr, hq, hh, hw], hw⟩
    · by_cases hv : v = ""
      · exact ⟨w, by simp [getPlatformFromRequest, jsOr, hq, hv, hh, hw], hw⟩
      · exact ⟨v, by simp [getPlatformFromRequest, jsOr, hq, hv], hv⟩

/-- C6 witness: the 520 error response on a platformless request, and a
successful resolution from a non-empty query parameter. -/
theorem platform_resolution_and_520_wit :
    (getPlatformFromRequest reqNoPlat = Except.error missingPlatformError ∧
     handler envOk "/app" reqNoPlat =
       [Effect.logError missingPlatformError, Effect.setStatus 520,
        Effect.endBody (Json.obj [("error", Json.str missingPlatformError.toString)])]) ∧
    getPlatformFromRequest reqOk = Except.ok "ios" := by
  refine ⟨(platform_resolution_and_520 envOk "/app" reqNoPlat rfl).1 ⟨rfl, rfl⟩, ?_⟩
  exact (platform_resolution_and_520 envOk "/app" reqOk rfl).2.1 "ios" rfl (by decide)

/-- The lazy scan consumes a leading segment of its input. -/
theorem originScan_isLeading (l r : List Char) (h : originScan l = some r) :
    ∃ rest, l = r ++ rest := by
  induction l generalizing r with
  | nil => simp [originScan] at h
  | cons c cs ih =>
    unfold originScan at h
    by_cases hc : c = '/'
    · rw [if_pos hc] at h
      refine ⟨cs, ?_⟩
      rw [← Option.some.inj h, hc]
      rfl
    · rw [if_neg hc] at h
      by_cases hn : c = '\n'
      · rw [if_pos hn] at h; simp at h
      · rw [if_neg hn] at h
        rcases ho : originScan cs with _ | r'
        · rw [ho] at h; simp at h
        · rw [ho] at h
          simp only [Option.map_some', Option.some.injEq] at h
          obtain ⟨rest, hrest⟩ := ih r' ho
          exact ⟨rest, by rw [← h, hrest]; rfl⟩

/-- A regex match is a leading segment of its input. -/
theorem matchHttpOrigin_isLeading (l m : List Char) (h : matchHttpOrigin l = some m) :
    ∃ rest, l = m ++ rest := by
  unfold matchHttpOrigin at h
  split at h
  · next r =>
    rcases ho : originScan r with _ | m'
    · rw [ho] at h; simp at h
    · rw [ho] at h
      simp only [Option.map_some', Option.some.injEq] at h
      obtain ⟨rest, hrest⟩ := originScan_isLeading r m' ho
      exact ⟨rest, by rw [← h, hrest]; rfl⟩
  · next r =>
    rcases ho : originScan r with _ | m'
    · rw [ho] at h; simp at h
    · rw [ho] at h
      simp only [Option.map_some', Option.some.injEq] at h
      obtain ⟨rest, hrest⟩ := originScan_isLeading r m' ho
      exact ⟨rest, by rw [← h, hrest]; rfl⟩
  · simp at h

/-- Rebuilding a string from its character data is the identity. -/
theorem string_mk_data (s : String) : String.mk s.data = s := by
  cases s
  rfl

/-- The matched origin is a leading segment of the bundle url. -/
theorem bundleOrigin_isLeading (u o : String) (h : bundleOrigin u = some o) :
    ∃ rest, u = o ++ rest := by
  unfold bundleOrigin at h
  rcases hm : matchHttpOrigin u.data with _ | m
  · rw [hm] at h; simp at h
  · rw [hm] at h
    simp only [Option.map_some', Option.some.injEq] at h
    obtain ⟨rest, hrest⟩ := matchHttpOrigin_isLeading u.data m hm
    refine ⟨String.mk rest, ?_⟩
    rw [← h]
    have hjoin : String.mk m ++ String.mk rest = String.mk (m ++ rest) := rfl
    rw [hjoin, ← hrest, string_mk_data]

/-- Every url the spec-modelled collector records comes from the
base-URL function applied to the recorded path. -/
theorem collect_ok_urls (bu o : String) (ho : bundleOrigin bu = some o) :
    ∀ (paths : List String) (assets : List Asset),
      collectManifestAssets paths (urlBuilder (some bu)) = Except.ok assets →
      ∀ a ∈ assets, a.url = o ++ ("assets/" ++ a.path) := by
  intro paths
  induction paths with
  | nil =>
    intro assets h a ha
    simp only [collectManifestAssets, Except.ok.injEq] at h
    rw [← h] at ha
    simp at ha
  | cons p rest ih =>
    intro assets h a ha
    unfold collectManifestAssets at h
    have hb : urlBuilder (some bu) p = Except.ok (o ++ ("assets/" ++ p)) := by
      simp [urlBuilder, ho]
    rw [hb] at h
    rcases hr : collectManifestAssets rest (urlBuilder (some bu)) with e | tl
    · simp only [hr] at h; exact absurd h (by simp)
    · simp only [hr, Except.ok.injEq] at h
      rw [← h] at ha
      cases ha with
      | head => rfl
      | tail b hmem => exact ih tl hr a hmem

/-- C7: when the bundle url has an absolute http(s) origin, the base-URL
function maps every asset path to that origin (a leading segment of the
bundle url) followed by the fixed assets segment and the path, so every
collected asset url carries the origin-slash-assets prefix. -/
theorem asset_urls_prefixed (bu o path : String) (paths : List String) (assets : List Asset)
    (ho : bundleOrigin bu = some o)
    (hc : collectManifestAssets paths (urlBuilder (some bu)) = Except.ok assets) :
    urlBuilder (some bu) path = Except.ok (o ++ ("assets/" ++ path)) ∧
    (∃ rest, bu = o ++ rest) ∧
    (∀ a ∈ assets, a.url = o ++ ("assets/" ++ a.path)) :=
  ⟨by simp [urlBuilder, ho], bundleOrigin_isLeading bu o ho, collect_ok_urls bu o ho paths assets hc⟩

/-- C7 witness: a concrete bundle url and one collected asset. -/
theorem asset_urls_prefixed_wit :
    bundleOrigin "http://localhost:19000/bundle.js" = some "http://localhost:19000/" ∧
    urlBuilder (some "http://localhost:19000/bundle.js") "logo.png" =
      Except.ok ("http://localhost:19000/" ++ ("assets/" ++ "logo.png")) ∧
    (∀ a ∈ [Asset.mk "logo.png" "http://localhost:19000/assets/logo.png"],
      a.url = "http://localhost:19000/" ++ ("assets/" ++ a.path)) := by
  have h := asset_urls_prefixed "http://localhost:19000/bundle.js" "http://localhost:19000/"
    "logo.png" ["logo.png"] [Asset.mk "logo.png" "http://localhost:19000/assets/logo.png"]
    rfl rfl
  exact ⟨rfl, h.1, h.2.2⟩

/-- C8: a bundle url without an absolute http(s) origin makes the
base-URL callback fail on every path with the invalid-bundle-url
TypeError, and once the collector invokes it on at least one path that
failure propagates out of the builder to the route-level catch, which
answers 520 with the error body. -/
theorem invalid_bundle_url_propagates (env : Env) (root : String) (req : Request)
    (platform : String) (cfg : ProjectConfig) (ep : String) (classic : ClassicManifest)
    (bu p0 : String) (ps : List String)
    (hp : getPlatformFromRequest req = Except.ok platform)
    (hc : env.getConfig root = Except.ok cfg)
    (he : env.resolveEntryPoint root platform cfg = Except.ok ep)
    (hcm : env.getClassicManifest root platform (headerLookup req.headers "host") =
      Except.ok classic)
    (hb : classic.bundleUrl = some bu)
    (ho : bundleOrigin bu = none)
    (hpaths : env.assetPaths = p0 :: ps)
    (hm : matchesRoute req = true) :
    (∀ q, urlBuilder (some bu) q = Except.error invalidBundleUrlError) ∧
    getManifestResponseAsync env root req = Except.error invalidBundleUrlError ∧
    handler env root req =
      [Effect.logError invalidBundleUrlError, Effect.setStatus 520,
       Effect.endBody (errorBodyJson invalidBundleUrlError)] := by
  have hub : ∀ q, urlBuilder (some bu) q = Except.error invalidBundleUrlError := by
    intro q; simp [urlBuilder, ho]
  have hcol : collectManifestAssets env.assetPaths (urlBuilder classic.bundleUrl) =
      Except.error invalidBundleUrlError := by
    rw [hpaths, hb]
    simp [collectManifestAssets, hub p0]
  have hres : getManifestResponseAsync env root req = Except.error invalidBundleUrlError := by
    simp only [getManifestResponseAsync, hp, hc, he, hcm, hcol]
  exact ⟨hub, hres, by simp [handler, hm, hres]⟩

/-- C8 witness: a bundle url with no slash after the host. -/
theorem invalid_bundle_url_propagates_wit :
    bundleOrigin "http://localhost:19000" = none ∧
    getManifestResponseAsync envBadBundle "/app" reqOk = Except.error invalidBundleUrlError ∧
    handler envBadBundle "/app" reqOk =
      [Effect.logError invalidBundleUrlError, Effect.setStatus 520,
       Effect.endBody (errorBodyJson invalidBundleUrlError)] := by
  have h := invalid_bundle_url_propagates envBadBundle "/app" reqOk "ios" ⟨[]⟩ "index.js"
    ⟨some "http://localhost:19000", none, some "45.0.0", []⟩ "http://localhost:19000"
    "logo.png" [] rfl rfl rfl rfl rfl rfl rfl rfl
  exact ⟨rfl, h.2.1, h.2.2⟩

/-- C9: every successful response carries exactly the four fixed headers
with their literal values, and the handler writes them onto the
response in insertion order. -/
theorem success_headers_exact (env : Env) (root : String) (req : Request)
    (resp : ManifestResponse)
    (hm : matchesRoute req = true)
    (h : getManifestResponseAsync env root req = Except.ok resp) :
    resp.headers =
      [("expo-protocol-version", HVal.num 0),
       ("expo-sfv-version", HVal.num 0),
       ("cache-control", HVal.str "private, max-age=0"),
       ("content-type", HVal.str "application/json")] ∧
    headersWritten (handler env root req) = resp.headers := by
  have hh := success_headers env root req resp h
  refine ⟨hh, ?_⟩
  simp only [handler, hm, h, if_true]
  rw [headersWritten_setHeaders]
  simp [headersWritten]

/-- C9 witness: the four headers on a concrete successful request. -/
theorem success_headers_exact_wit :
    headersWritten (handler envOk "/app" reqOk) =
      [("expo-protocol-version", HVal.num 0),
       ("expo-sfv-version", HVal.num 0),
       ("cache-control", HVal.str "private, max-age=0"),
       ("content-type", HVal.str "application/json")] := by
  have h := success_headers_exact envOk "/app" reqOk
    { body := { id := envOk.uuid, createdAt := envOk.now,
                runtimeVersion := some "exposdk:45.0.0",
                launchAsset := { key := "index", contentType := "application/javascript",
                                 url := some "http://localhost:19000/bundle.js" },
                assets := [{ path := "logo.png",
                             url := "http://localhost:19000/assets/logo.png" }],
                expoGoConfig :=
                  ⟨some "http://localhost:19000/bundle.js", none, some "45.0.0", []⟩ },
      headers := fixedResponseHeaders } rfl rfl
  rw [h.2, h.1]

/-- C10: with no bundleUrl in the classic result the non-null assertion
of line 59 performs no runtime check, so when the collector never
invokes the base-URL callback the builder still returns a success body
whose launchAsset has an undefined url, the url key being absent from
the serialized launchAsset object. -/
theorem missing_bundle_url_success (env : Env) (root : String) (req : Request)
    (platform : String) (cfg : ProjectConfig) (ep : String) (classic : ClassicManifest)
    (hp : getPlatformFromRequest req = Except.ok platform)
    (hc : env.getConfig root = Except.ok cfg)
    (he : env.resolveEntryPoint root platform cfg = Except.ok ep)
    (hcm : env.getClassicManifest root platform (headerLookup req.headers "host") =
      Except.ok classic)
    (hb : classic.bundleUrl = none)
    (hpaths : env.assetPaths = []) :
    ∃ resp, getManifestResponseAsync env root req = Except.ok resp ∧
      resp.body.launchAsset.url = none ∧
      jsonObjLookup (launchAssetToJson resp.body.launchAsset) "url" = none := by
  have hcol : collectManifestAssets env.assetPaths (urlBuilder classic.bundleUrl) =
      Except.ok [] := by
    rw [hpaths]; rfl
  have hres : getManifestResponseAsync env root req = Except.ok
      { body := { id := env.uuid, createdAt := env.now,
                  runtimeVersion := runtimeVersionOf env classic,
                  launchAsset := { key := env.stripJSExtension ep,
                                   contentType := "application/javascript",
                                   url := classic.bundleUrl },
                  assets := [], expoGoConfig := classic },
        headers := fixedResponseHeaders } := by
    simp only [getManifestResponseAsync, hp, hc, he, hcm, hcol]
  refine ⟨_, hres, by simp [hb], ?_⟩
  simp [launchAssetToJson, hb, optStrField, jsonObjLookup, lookupField]

/-- C10 witness: a concrete run with no bundleUrl and no assets. -/
theorem missing_bundle_url_success_wit :
    ∃ resp, getManifestResponseAsync envNoBundle "/app" reqOk = Except.ok resp ∧
      resp.body.launchAsset.url = none ∧
      jsonObjLookup (launchAssetToJson resp.body.launchAsset) "url" = none :=
  missing_bundle_url_success envNoBundle "/app" reqOk "ios" ⟨[]⟩ "index.js"
    ⟨none, none, some "45.0.0", []⟩ rfl rfl rfl rfl rfl rfl

end ExpoUpdates
